import Mathlib

/-!
Verification development for the PhishGuard backend scoring engine
(src/extension/background.js).

Modelling conventions
* JavaScript numbers that only ever hold integer values are modelled as `ℤ`
  (or `ℕ` for counts); the two weighted averages are carried out in `ℚ`.
  The JS weight constants 0.5 and 0.25 are exact binary floats, and the
  email weights 0.4 / 0.2 only ever produce values whose exact fractional
  parts are multiples of 1/5 (never 1/2), so `Math.round` on the float
  agrees with rounding the exact rational.
* `Math.round` is `jsRound q = ⌊q + 1/2⌋` (JS rounds half toward +∞).
* Fallible / absent JS values (`null`, `undefined`, missing fields) are
  `Option`; JS string truthiness (`""` is falsy) is modelled explicitly
  with `isEmpty` tests at each place the source tests truthiness.
* The network and the WHATWG `new URL` parser are external to the
  repository.  They enter the model as oracle fields of `Env`
  (`ipqs`, `stalkphish`, `redirect`, `domainAuth` for the four async
  lookups of `aggregateSignals`; `parseURL` for `new URL(...).hostname`;
  `anchorHostToken`, `fromAddr`, `returnPathAddr` for the three regular
  expression extractions).  All repository-side logic is translated
  directly from the source.
* The `node-cache` store is modelled as an association list without
  expiry, i.e. all statements about repeated requests are statements
  about requests within the cache TTL.
-/

inductive Verdict where
  | safe
  | suspicious
  | malicious
deriving DecidableEq

structure Flags where
  malicious : Bool
  phishing : Bool
  malware : Bool
  suspicious : Bool
deriving DecidableEq

/-- Shape of a successful `callIPQS` result (background.js lines 139-143):
a normalized score (possibly `null`) and the extracted boolean flags.
The untyped `raw` payload is dropped: nothing downstream reads it. -/
structure IpqsResult where
  score : Option ℤ
  flags : Flags
deriving DecidableEq

/-- Shape of a successful `callStalkPhish` result (lines 155-158). -/
structure StalkResult where
  score : Option ℤ
deriving DecidableEq

structure RedirectInfo where
  finalUrl : Option String
  redirectCount : ℕ
deriving DecidableEq

structure DomainAuth where
  spf : Bool
  dmarc : Bool
deriving DecidableEq

/-- Result object built by `aggregateSignals` (line 209) and returned by
the cache-hit path (line 179).  The fresh object built on a miss has no
`cached` property at all; a hit returns the stored object with
`cached: true` spliced in.  `cached : Option Bool` records
presence/absence of that property.  `breakdown` is the empty object
placeholder `{ /*...*/ }` of line 209. -/
structure AggResult where
  url : String
  verdict : Verdict
  score : ℤ
  breakdown : Unit
  cached : Option Bool
deriving DecidableEq

structure ScanTarget where
  url : String
  anchorText : Option String
  senderDomain : Option String
deriving DecidableEq

/-- Parsed-URL object: the only property the source ever reads off a
`new URL(...)` value is `hostname`. -/
structure UrlObj where
  hostname : String
deriving DecidableEq

/-- Oracles for everything outside the repository: the four network
lookups, the WHATWG URL parser, and the three regex extractions. -/
structure Env where
  ipqs : String → Option IpqsResult
  stalkphish : String → Option StalkResult
  redirect : String → RedirectInfo
  domainAuth : String → DomainAuth
  parseURL : String → Option UrlObj
  anchorHostToken : String → Option String
  fromAddr : String → Option String
  returnPathAddr : String → Option String

/-- Substring test (JS `String.prototype.includes`) on character lists. -/
def charsPrefix : List Char → List Char → Bool
  | [], _ => true
  | _ :: _, [] => false
  | a :: as, b :: bs => a == b && charsPrefix as bs

def charsInfix (pat : List Char) : List Char → Bool
  | [] => charsPrefix pat []
  | b :: bs => charsPrefix pat (b :: bs) || charsInfix pat bs

def containsSubstring (s pat : String) : Bool :=
  charsInfix pat.toList s.toList

/-- JS `Math.round`: round half toward positive infinity. -/
def jsRound (q : ℚ) : ℤ := (q + 1/2).floor

/-- background.js lines 67-70.  `null` / `NaN` inputs are `none`. -/
def normalizeScore (n : Option ℚ) : Option ℤ :=
  match n with
  | none => none
  | some v => some (max 0 (min 100 (jsRound v)))

/-- background.js lines 72-74. -/
def isPunycode (hostname : String) : Bool :=
  containsSubstring hostname ("xn--")

structure WeightConfig where
  ipqs : ℚ
  stalkphish : ℚ
  heuristics : ℚ

/-- background.js lines 76-80 (0.5 and 0.25 are exact binary floats). -/
def WEIGHTS : WeightConfig :=
  { ipqs := 1/2, stalkphish := 1/4, heuristics := 15 }

/-- background.js lines 82-85: `/^(\d\x7b1,3\x7d\.)\x7b3\x7d\d\x7b1,3\x7d$/`
on the hostname: exactly four dot-separated groups of one to three
digits. -/
def hasIPInHostname (urlObj : UrlObj) : Bool :=
  let parts := urlObj.hostname.splitOn (".")
  parts.length == 4 &&
    parts.all (fun p =>
      decide (1 ≤ p.length) && decide (p.length ≤ 3) && p.all (fun c => c.isDigit))

/-- background.js line 87. -/
def suspiciousTLDs : List String :=
  ["zip", "review", "country", "kim", "gq", "work", "top", "men", "party"]

structure HeurInput where
  url : String
  anchorText : Option String
  redirectCount : Option ℕ
  finalUrl : Option String

/-- JS `String.prototype.startsWith`, implemented over character lists
(the core `String.startsWith` does not evaluate inside the kernel). -/
def strStartsWith (s p : String) : Bool :=
  charsPrefix p.toList s.toList

/-- JS `m[0].replace(/^www\./i, "")`. -/
def stripWww (s : String) : String :=
  if strStartsWith s.toLower ("www.") then s.drop 4 else s

/-- background.js lines 93-101: the anchor-text host-mismatch bonus.
`env.anchorHostToken` plays the regex `match`; a parse failure of an
`http...` token is the inner `catch (e) \x7b\x7d`, contributing nothing.
The JS guard `if (aHost && ...)` makes an empty extracted host count as
absent. -/
def anchorMismatchAdd (env : Env) (urlObj : UrlObj) (anchorText : Option String) : ℤ :=
  match anchorText with
  | none => 0
  | some a =>
    if a.isEmpty then 0
    else
      match env.anchorHostToken a with
      | none => 0
      | some m0 =>
        let aHost : Option String :=
          if strStartsWith m0 ("http") then (env.parseURL m0).map (fun u => u.hostname)
          else some (stripWww m0)
        match aHost with
        | none => 0
        | some h => if h.isEmpty then 0 else if h ≠ urlObj.hostname then 12 else 0

/-- background.js line 102. -/
def punycodeAdd (urlObj : UrlObj) : ℤ :=
  if isPunycode urlObj.hostname then 10 else 0

/-- background.js line 103. -/
def ipHostAdd (urlObj : UrlObj) : ℤ :=
  if hasIPInHostname urlObj then 12 else 0

/-- background.js lines 104-105: last dot-separated label, lowercased;
the JS guard `if (tld && ...)` makes the empty label count as absent. -/
def tldAdd (urlObj : UrlObj) : ℤ :=
  match (urlObj.hostname.splitOn (".")).getLast? with
  | none => 0
  | some tld =>
    let tldL := tld.toLower
    if tldL.isEmpty then 0
    else if suspiciousTLDs.contains tldL then 8 else 0

/-- background.js line 106. -/
def redirectAdd (redirectCount : Option ℕ) : ℤ :=
  match redirectCount with
  | some n => if 3 ≤ n then min 12 ((n : ℤ) * 3) else 0
  | none => 0

/-- background.js lines 107-112; a parse failure of `finalUrl` is the
inner `catch (e) \x7b\x7d`, contributing nothing. -/
def finalUrlAdd (env : Env) (urlObj : UrlObj) (finalUrl : Option String) : ℤ :=
  match finalUrl with
  | none => 0
  | some f =>
    if f.isEmpty then 0
    else
      match env.parseURL f with
      | none => 0
      | some fo => if fo.hostname ≠ urlObj.hostname then 6 else 0

/-- background.js lines 89-117: the six independent additive
contributions accumulated by `score +=`; a malformed `url` hits the
outer `catch` and yields 0. -/
def heuristicsScore (env : Env) (inp : HeurInput) : ℤ :=
  match env.parseURL inp.url with
  | none => 0
  | some urlObj =>
    anchorMismatchAdd env urlObj inp.anchorText
      + punycodeAdd urlObj
      + ipHostAdd urlObj
      + tldAdd urlObj
      + redirectAdd inp.redirectCount
      + finalUrlAdd env urlObj inp.finalUrl

/-- background.js lines 192-195: running weighted sum and running total
weight; an absent score leaves both untouched. -/
def weightedTotals (ipqsScore stalkScore : Option ℤ) : ℚ × ℚ :=
  let acc0 : ℚ × ℚ := (0, 0)
  let acc1 :=
    match ipqsScore with
    | some s => (acc0.1 + (s : ℚ) * WEIGHTS.ipqs, acc0.2 + WEIGHTS.ipqs)
    | none => acc0
  match stalkScore with
  | some s => (acc1.1 + (s : ℚ) * WEIGHTS.stalkphish, acc1.2 + WEIGHTS.stalkphish)
  | none => acc1

/-- background.js line 197. -/
def baseScoreOf (ipqsScore stalkScore : Option ℤ) : ℤ :=
  let wt := weightedTotals ipqsScore stalkScore
  if 0 < wt.2 then jsRound (wt.1 / wt.2) else 50

/-- background.js line 199. -/
def authBonusOf (a : DomainAuth) : ℤ :=
  (if a.spf then -6 else 6) + (if a.dmarc then -4 else 4)

/-- background.js line 202. -/
def explicitMaliciousOf (ipqsR : Option IpqsResult) : Bool :=
  match ipqsR with
  | some r => r.flags.malicious || r.flags.phishing
  | none => false

/-- background.js lines 205-207. -/
def verdictUrl (s : ℤ) : Verdict :=
  if 70 ≤ s then Verdict.malicious
  else if 40 ≤ s then Verdict.suspicious
  else Verdict.safe

def MALICIOUS_THRESHOLD : ℤ := 80

def SUSPICIOUS_THRESHOLD : ℤ := 50

/-- background.js lines 279-281 with the constants of lines 60-61. -/
def verdictEmail (s : ℤ) : Verdict :=
  if MALICIOUS_THRESHOLD ≤ s then Verdict.malicious
  else if SUSPICIOUS_THRESHOLD ≤ s then Verdict.suspicious
  else Verdict.safe

/-- The settled sub-lookups feeding the scoring block. -/
structure Signals where
  ipqsR : Option IpqsResult
  stalkR : Option StalkResult
  redirectR : RedirectInfo
  authR : DomainAuth

/-- background.js lines 188-209: the pure scoring block of
`aggregateSignals`, from the settled lookups to the stored result
object (which carries no `cached` property). -/
def computeResult (url : String) (sig : Signals) (heurScoreRaw : ℤ) : AggResult :=
  let ipqsScore : Option ℤ := sig.ipqsR.bind (fun r => r.score)
  let stalkScore : Option ℤ := sig.stalkR.bind (fun r => r.score)
  let baseScore : ℤ := baseScoreOf ipqsScore stalkScore
  let heuristicsContribution : ℤ := min 30 heurScoreRaw
  let authBonus : ℤ := authBonusOf sig.authR
  let finalRaw : ℤ := max 0 (min 100 (baseScore + heuristicsContribution + authBonus))
  let finalScore : ℤ :=
    if explicitMaliciousOf sig.ipqsR then max finalRaw 85 else finalRaw
  { url := url, verdict := verdictUrl finalScore, score := finalScore,
    breakdown := (), cached := none }

abbrev Cache := List (String × AggResult)

def Cache.empty : Cache := []

def Cache.get (c : Cache) (k : String) : Option AggResult :=
  match c.find? (fun p => p.1 == k) with
  | some p => some p.2
  | none => none

def Cache.set (c : Cache) (k : String) (v : AggResult) : Cache :=
  (k, v) :: c

/-- Every stored result has a score in [0,100]; holds for every cache
reachable from the empty one. -/
def Cache.valid (c : Cache) : Prop :=
  ∀ p ∈ c, 0 ≤ p.2.score ∧ p.2.score ≤ 100

/-- background.js line 177: `scan::${url}::${anchorText || ""}::${senderDomain || ""}`. -/
def cacheKey (t : ScanTarget) : String :=
  "scan::" ++ t.url ++ "::" ++ t.anchorText.getD "" ++ "::" ++ t.senderDomain.getD ""

/-- background.js line 185: `senderDomain ? checkDomainAuth(senderDomain)
: \x7bspf:false, dmarc:false\x7d` (the empty string is falsy). -/
def authFor (env : Env) (senderDomain : Option String) : DomainAuth :=
  match senderDomain with
  | some d => if d.isEmpty then { spf := false, dmarc := false } else env.domainAuth d
  | none => { spf := false, dmarc := false }

/-- background.js lines 176-212.  The concurrent `Promise.all` is
modelled by reading the four oracles; the cache-hit path returns the
stored object with `cached := some true` spliced in and writes nothing. -/
def aggregateSignals (env : Env) (cache : Cache) (t : ScanTarget) : AggResult × Cache :=
  let key := cacheKey t
  match Cache.get cache key with
  | some c => ({ c with cached := some true }, cache)
  | none =>
    let ipqsR := env.ipqs t.url
    let stalkR := env.stalkphish t.url
    let redirectR := env.redirect t.url
    let authR := authFor env t.senderDomain
    let heurScoreRaw := heuristicsScore env
      { url := t.url, anchorText := t.anchorText,
        redirectCount := some redirectR.redirectCount, finalUrl := redirectR.finalUrl }
    let result := computeResult t.url
      { ipqsR := ipqsR, stalkR := stalkR, redirectR := redirectR, authR := authR }
      heurScoreRaw
    (result, Cache.set cache key result)

structure HeaderReport where
  spf : String
  dkim : String
  dmarc : String
  mismatch_from_return : Bool
deriving DecidableEq

structure HeaderAnalysis where
  score : ℤ
  report : HeaderReport
deriving DecidableEq

def neutralReport : HeaderReport :=
  { spf := "neutral", dkim := "neutral", dmarc := "neutral", mismatch_from_return := false }

/-- background.js lines 218-237.  The two address extractions
(`From:` / `Return-Path:` angle-bracket regexes, applied to the
lowercased text) are the oracles `env.fromAddr` / `env.returnPathAddr`. -/
def analyzeHeaders (env : Env) (headersText : Option String) : HeaderAnalysis :=
  match headersText with
  | none => { score := 10, report := neutralReport }
  | some t =>
    if t.isEmpty then { score := 10, report := neutralReport }
    else
      let lower := t.toLower
      let spfPair : ℤ × String :=
        if containsSubstring lower ("spf=pass") then (-15, "pass")
        else if containsSubstring lower ("spf=fail") then (25, "fail")
        else (0, "neutral")
      let dkimPair : ℤ × String :=
        if containsSubstring lower ("dkim=pass") then (-10, "pass")
        else if containsSubstring lower ("dkim=fail") then (20, "fail")
        else (0, "neutral")
      let dmarcPair : ℤ × String :=
        if containsSubstring lower ("dmarc=pass") then (-5, "pass")
        else if containsSubstring lower ("dmarc=fail") then (25, "fail")
        else (0, "neutral")
      let mismatch : Bool :=
        match env.fromAddr lower, env.returnPathAddr lower with
        | some f, some r => f != r
        | _, _ => false
      let score := spfPair.1 + dkimPair.1 + dmarcPair.1 + (if mismatch then 20 else 0)
      { score := max 0 score,
        report := { spf := spfPair.2, dkim := dkimPair.2, dmarc := dmarcPair.2,
                    mismatch_from_return := mismatch } }

structure BodyAnalysis where
  score : ℤ
  keywordsFound : List String
deriving DecidableEq

/-- background.js line 243. -/
def urgencyKeywords : List String :=
  ["urgent", "action required", "account suspended", "verify your account",
   "password expired", "unusual activity", "security alert", "confirm your identity"]

def bodyStep (lower : String) (acc : BodyAnalysis) (kw : String) : BodyAnalysis :=
  if containsSubstring lower kw then
    { score := acc.score + 8, keywordsFound := acc.keywordsFound ++ [kw] }
  else acc

/-- background.js lines 239-252. -/
def analyzeBody (bodyText : String) : BodyAnalysis :=
  if bodyText.isEmpty then { score := 0, keywordsFound := [] }
  else urgencyKeywords.foldl (bodyStep bodyText.toLower) { score := 0, keywordsFound := [] }

structure LinkInput where
  href : String
  anchorText : Option String
deriving DecidableEq

structure EmailRequest where
  headers : Option String
  body : Option String
  links : Option (List LinkInput)
deriving DecidableEq

structure ScanRequest where
  url : Option String
  anchorText : Option String
  senderDomain : Option String
deriving DecidableEq

structure EmailBreakdown where
  headerReport : HeaderReport
  bodyKeywords : List String
  highestLinkScore : ℤ
  mostMaliciousLink : Option (String × ℤ)
  finalScore : ℤ
deriving DecidableEq

inductive EmailResponse where
  | clientError (status : ℕ) (error : String)
  | success (verdict : Verdict) (score : ℤ) (breakdown : EmailBreakdown)
deriving DecidableEq

inductive ScanResponse where
  | clientError (status : ℕ) (error : String)
  | success (result : AggResult)
deriving DecidableEq

/-- background.js lines 264-265: each link is scanned through
`aggregateSignals(\x7burl: link.href, anchorText: link.anchorText\x7d)`;
the shared cache is threaded through the scans. -/
def scanLinks (env : Env) (cache : Cache) : List LinkInput → List AggResult × Cache
  | [] => ([], cache)
  | l :: ls =>
    let p := aggregateSignals env cache { url := l.href, anchorText := l.anchorText, senderDomain := none }
    let rest := scanLinks env p.2 ls
    (p.1 :: rest.1, rest.2)

/-- background.js lines 267-274: the worst-link fold, starting from 0
with no `mostMaliciousLink`. -/
def highestStep (acc : ℤ × Option (String × ℤ)) (r : AggResult) : ℤ × Option (String × ℤ) :=
  if acc.1 < r.score then (r.score, some (r.url, r.score)) else acc

def highestLink (rs : List AggResult) : ℤ × Option (String × ℤ) :=
  rs.foldl highestStep (0, none)

/-- background.js lines 256-296, the `POST /scan-email` handler (its
success path; the outer `catch` is unreachable in the model).  The JS
guard `if (!body)` rejects both a missing and an empty `body`. -/
def scanEmailHandler (env : Env) (cache : Cache) (req : EmailRequest) : EmailResponse × Cache :=
  match req.body with
  | none => (EmailResponse.clientError 400 ("missing email body"), cache)
  | some b =>
    if b.isEmpty then (EmailResponse.clientError 400 ("missing email body"), cache)
    else
      let headerAnalysis := analyzeHeaders env req.headers
      let bodyAnalysis := analyzeBody b
      let linkPair := scanLinks env cache (req.links.getD [])
      let hl := highestLink linkPair.1
      let finalScore : ℚ :=
        (headerAnalysis.score : ℚ) * (2/5) + (bodyAnalysis.score : ℚ) * (1/5)
          + (hl.1 : ℚ) * (2/5)
      let normalizedScore : ℤ := jsRound (min 100 finalScore)
      (EmailResponse.success (verdictEmail normalizedScore) normalizedScore
        { headerReport := headerAnalysis.report,
          bodyKeywords := bodyAnalysis.keywordsFound,
          highestLinkScore := hl.1,
          mostMaliciousLink := hl.2,
          finalScore := normalizedScore },
       linkPair.2)

/-- background.js lines 298-307, the `POST /scan` handler: the 200
response is `\x7bok: true, ...aggregated\x7d`, i.e. exactly the fields of
the `AggResult`. -/
def scanHandler (env : Env) (cache : Cache) (req : ScanRequest) : ScanResponse × Cache :=
  match req.url with
  | none => (ScanResponse.clientError 400 ("missing url"), cache)
  | some u =>
    if u.isEmpty then (ScanResponse.clientError 400 ("missing url"), cache)
    else
      let p := aggregateSignals env cache { url := u, anchorText := req.anchorText, senderDomain := req.senderDomain }
      (ScanResponse.success p.1, p.2)

/-- The `linkAnalysis.highestLinkScore` field of a 200 email response. -/
def EmailResponse.highestOf : EmailResponse → Option ℤ
  | EmailResponse.success _ _ bd => some bd.highestLinkScore
  | _ => none

/-- The `cached` property of a 200 scan response (`some none` means the
response is a 200 whose body has no `cached` field). -/
def ScanResponse.cachedOf : ScanResponse → Option (Option Bool)
  | ScanResponse.success r => some r.cached
  | _ => none

/-- A null environment: no API keys configured, no network, a URL parser
that rejects everything, regexes that match nothing. -/
def envNull : Env :=
  { ipqs := fun _ => none, stalkphish := fun _ => none,
    redirect := fun _ => { finalUrl := none, redirectCount := 0 },
    domainAuth := fun _ => { spf := false, dmarc := false },
    parseURL := fun _ => none, anchorHostToken := fun _ => none,
    fromAddr := fun _ => none, returnPathAddr := fun _ => none }

/-- An environment whose higher-weight provider (IPQS) flags the URL as
malicious while reporting a low raw score. -/
def envFlagged : Env :=
  { envNull with
    ipqs := fun _ => some
      { score := some 10,
        flags := { malicious := true, phishing := false, malware := false, suspicious := false } } }

/-- A benign stored entry for the worst-link scenario. -/
def zeroEntry (u : String) : String × AggResult :=
  (cacheKey { url := u, anchorText := none, senderDomain := none },
   { url := u, verdict := Verdict.safe, score := 0, breakdown := (), cached := none })

/-- Cache state holding nine links scored 0 and one scored 95. -/
def cacheW6 : Cache :=
  [zeroEntry "u0", zeroEntry "u1", zeroEntry "u2", zeroEntry "u3", zeroEntry "u4",
   zeroEntry "u5", zeroEntry "u6", zeroEntry "u7", zeroEntry "u8",
   (cacheKey { url := "u9", anchorText := none, senderDomain := none },
    { url := "u9", verdict := Verdict.malicious, score := 95, breakdown := (), cached := none })]

def linksW6 : List LinkInput :=
  [{ href := "u0", anchorText := none }, { href := "u1", anchorText := none },
   { href := "u2", anchorText := none }, { href := "u3", anchorText := none },
   { href := "u4", anchorText := none }, { href := "u5", anchorText := none },
   { href := "u6", anchorText := none }, { href := "u7", anchorText := none },
   { href := "u8", anchorText := none }, { href := "u9", anchorText := none }]

def reqW6 : EmailRequest := { headers := none, body := some "x", links := some linksW6 }

/-- Two distinct scan targets whose composite fingerprints collide: the
delimiter `::` inside the first target's url absorbs the field
separator. -/
def tColl1 : ScanTarget := { url := "http://e.com::x", anchorText := some "y", senderDomain := none }

def tColl2 : ScanTarget := { url := "http://e.com", anchorText := some "x::y", senderDomain := none }

def reqW8 : ScanRequest := { url := some "http://e.test", anchorText := none, senderDomain := none }

/-- An environment whose anchor-token regex finds an `http...` token the
URL parser then rejects. -/
def envTok : Env :=
  { envNull with
    parseURL := fun s => if s = "http://a.test" then some { hostname := "a.test" } else none,
    anchorHostToken := fun _ => some "http://b.test" }

theorem jsRound_eq (q : ℚ) : jsRound q = ⌊q + 1/2⌋ := by
  rw [jsRound, Rat.floor_def', ← Rat.floor_def]

theorem jsRound_nonneg {q : ℚ} (h : 0 ≤ q) : 0 ≤ jsRound q := by
  rw [jsRound_eq]
  exact Int.le_floor.mpr (by push_cast; linarith)

theorem jsRound_le_hundred {q : ℚ} (h : q ≤ 100) : jsRound q ≤ 100 := by
  rw [jsRound_eq]
  have : ⌊q + 1/2⌋ < 101 := Int.floor_lt.mpr (by push_cast; linarith)
  omega

theorem clamp_bounds (x : ℤ) : 0 ≤ max 0 (min 100 x) ∧ max 0 (min 100 x) ≤ 100 := by
  omega

theorem computeResult_score_bounds (url : String) (sig : Signals) (h : ℤ) :
    0 ≤ (computeResult url sig h).score ∧ (computeResult url sig h).score ≤ 100 := by
  unfold computeResult
  have hb := clamp_bounds (baseScoreOf (sig.ipqsR.bind fun r => r.score)
    (sig.stalkR.bind fun r => r.score) + min 30 h + authBonusOf sig.authR)
  dsimp only
  split
  · omega
  · omega

theorem cache_get_set_self (c : Cache) (k : String) (v : AggResult) :
    Cache.get (Cache.set c k v) k = some v := by
  simp [Cache.get, Cache.set, List.find?]

theorem cache_get_valid {c : Cache} (hv : Cache.valid c) {k : String} {r : AggResult}
    (h : Cache.get c k = some r) : 0 ≤ r.score ∧ r.score ≤ 100 := by
  unfold Cache.get at h
  cases hf : c.find? (fun p => p.1 == k) with
  | none => rw [hf] at h; exact absurd h (by simp)
  | some p =>
    rw [hf] at h
    have hm : p ∈ c := List.mem_of_find?_eq_some hf
    have := hv p hm
    cases h
    exact this

theorem cache_set_valid {c : Cache} (hv : Cache.valid c) {k : String} {v : AggResult}
    (h : 0 ≤ v.score ∧ v.score ≤ 100) : Cache.valid (Cache.set c k v) := by
  intro p hp
  rcases List.mem_cons.mp hp with h1 | h2
  · rw [h1]; exact h
  · exact hv p h2

theorem empty_cache_valid : Cache.valid Cache.empty := by
  intro p hp
  exact absurd hp (by simp [Cache.empty])

theorem aggregate_bounds (env : Env) (cache : Cache) (t : ScanTarget)
    (hv : Cache.valid cache) :
    (0 ≤ ((aggregateSignals env cache t).1).score
      ∧ ((aggregateSignals env cache t).1).score ≤ 100)
      ∧ Cache.valid ((aggregateSignals env cache t).2) := by
  simp only [aggregateSignals]
  cases hc : Cache.get cache (cacheKey t) with
  | some c =>
    simp only [hc]
    exact ⟨cache_get_valid hv hc, hv⟩
  | none =>
    simp only [hc]
    exact ⟨computeResult_score_bounds _ _ _,
      cache_set_valid hv (computeResult_score_bounds _ _ _)⟩

theorem scanLinks_bounds (env : Env) :
    ∀ (ls : List LinkInput) (cache : Cache), Cache.valid cache →
      (∀ r ∈ (scanLinks env cache ls).1, 0 ≤ r.score ∧ r.score ≤ 100)
        ∧ Cache.valid ((scanLinks env cache ls).2) := by
  intro ls
  induction ls with
  | nil => intro cache hv; exact ⟨by intro r hr; exact absurd hr (by simp [scanLinks]), hv⟩
  | cons l ls ih =>
    intro cache hv
    have h1 := aggregate_bounds env cache
      { url := l.href, anchorText := l.anchorText, senderDomain := none } hv
    have h2 := ih _ h1.2
    constructor
    · intro r hr
      rw [scanLinks] at hr
      rcases List.mem_cons.mp hr with he | hm
      · rw [he]; exact h1.1
      · exact h2.1 r hm
    · rw [scanLinks]
      exact h2.2

theorem highest_fold_ge_acc (rs : List AggResult) :
    ∀ acc : ℤ × Option (String × ℤ), acc.1 ≤ (rs.foldl highestStep acc).1 := by
  induction rs with
  | nil => intro acc; exact le_refl _
  | cons r rs ih =>
    intro acc
    have h1 : acc.1 ≤ (highestStep acc r).1 := by
      unfold highestStep; split
      · simp_all; omega
      · simp_all
    exact le_trans h1 (ih (highestStep acc r))

theorem highest_fold_ub (rs : List AggResult) :
    ∀ (acc : ℤ × Option (String × ℤ)) (r : AggResult), r ∈ rs →
      r.score ≤ (rs.foldl highestStep acc).1 := by
  induction rs with
  | nil => intro acc r hr; exact absurd hr (by simp)
  | cons h t ih =>
    intro acc r hr
    rcases List.mem_cons.mp hr with he | hm
    · subst he
      have h1 : r.score ≤ (highestStep acc r).1 := by
        unfold highestStep; split
        · simp_all
        · simp_all only [not_lt]
      exact le_trans h1 (highest_fold_ge_acc t (highestStep acc r))
    · exact ih (highestStep acc h) r hm

theorem highest_fold_mem (rs : List AggResult) :
    ∀ acc : ℤ × Option (String × ℤ),
      (rs.foldl highestStep acc).1 = acc.1
        ∨ (rs.foldl highestStep acc).1 ∈ rs.map (fun r => r.score) := by
  induction rs with
  | nil => intro acc; exact Or.inl rfl
  | cons h t ih =>
    intro acc
    rcases ih (highestStep acc h) with h1 | h2
    · rw [List.foldl_cons] at *
      unfold highestStep at h1
      by_cases hlt : acc.1 < h.score
      · rw [if_pos hlt] at h1
        right
        rw [List.map_cons, List.mem_cons]
        left
        unfold highestStep
        rw [if_pos hlt]
        exact h1
      · rw [if_neg hlt] at h1
        left
        unfold highestStep
        rw [if_neg hlt]
        exact h1
    · right
      rw [List.foldl_cons, List.map_cons, List.mem_cons]
      exact Or.inr h2

theorem body_fold_ge (lower : String) (l : List String) :
    ∀ acc : BodyAnalysis, acc.score ≤ (l.foldl (bodyStep lower) acc).score := by
  induction l with
  | nil => intro acc; exact le_refl _
  | cons kw t ih =>
    intro acc
    have h1 : acc.score ≤ (bodyStep lower acc kw).score := by
      unfold bodyStep; split
      · simp
      · simp
    exact le_trans h1 (ih (bodyStep lower acc kw))

theorem analyzeBody_score_nonneg (b : String) : 0 ≤ (analyzeBody b).score := by
  unfold analyzeBody
  split
  · simp
  · have := body_fold_ge b.toLower urgencyKeywords { score := 0, keywordsFound := [] }
    simpa using this

theorem analyzeHeaders_score_nonneg (env : Env) (h : Option String) :
    0 ≤ (analyzeHeaders env h).score := by
  unfold analyzeHeaders
  cases h with
  | none => norm_num
  | some t =>
    dsimp only
    split
    · norm_num
    · simp only
      exact le_max_left 0 _

/-- C1: if the higher-weight reputation source (IPQS) returns a result
whose `flags.malicious` or `flags.phishing` is true, `aggregateSignals`
(on the compute path, i.e. a cache miss) returns a score of at least 85
and the verdict `malicious`, regardless of the weighted raw value
computed from the other signals. -/
theorem ipqs_flag_override_floor :
    ∀ (env : Env) (cache : Cache) (t : ScanTarget) (r : IpqsResult),
      Cache.get cache (cacheKey t) = none →
      env.ipqs t.url = some r →
      (r.flags.malicious || r.flags.phishing) = true →
      85 ≤ ((aggregateSignals env cache t).1).score ∧
      ((aggregateSignals env cache t).1).verdict = Verdict.malicious := by
  intro env cache t r hc hr hf
  simp only [aggregateSignals, hc, computeResult, explicitMaliciousOf, hr, hf, if_true]
  constructor
  · exact le_max_right _ _
  · unfold verdictUrl
    rw [if_pos (le_trans (by norm_num : (70:ℤ) ≤ 85) (le_max_right _ _))]

theorem ipqs_flag_override_floor_witness :
    85 ≤ ((aggregateSignals envFlagged Cache.empty
        { url := "http://x.test", anchorText := none, senderDomain := none }).1).score ∧
    ((aggregateSignals envFlagged Cache.empty
        { url := "http://x.test", anchorText := none, senderDomain := none }).1).verdict
      = Verdict.malicious :=
  ipqs_flag_override_floor envFlagged Cache.empty _
    { score := some 10,
      flags := { malicious := true, phishing := false, malware := false, suspicious := false } }
    rfl rfl rfl

/-- C2: every score produced by the URL aggregation path (on any cache
whose entries are themselves in range, e.g. any cache reachable from the
empty one) and every score produced by the email scoring path lies in
[0, 100]; both are integers by construction (`Math.round` output,
modelled as `ℤ`). -/
theorem all_scores_clamped :
    (∀ (env : Env) (cache : Cache) (t : ScanTarget), Cache.valid cache →
      (0 ≤ ((aggregateSignals env cache t).1).score
        ∧ ((aggregateSignals env cache t).1).score ≤ 100)
        ∧ Cache.valid ((aggregateSignals env cache t).2)) ∧
    (∀ (env : Env) (cache : Cache) (req : EmailRequest) (v : Verdict) (s : ℤ)
        (bd : EmailBreakdown),
      (scanEmailHandler env cache req).1 = EmailResponse.success v s bd →
      0 ≤ s ∧ s ≤ 100) := by
  constructor
  · exact aggregate_bounds
  · intro env cache req v s bd h
    unfold scanEmailHandler at h
    cases hb : req.body with
    | none => rw [hb] at h; exact absurd h (by simp)
    | some b =>
      rw [hb] at h
      dsimp only at h
      by_cases he : b.isEmpty
      · rw [if_pos he] at h; exact absurd h (by simp)
      · rw [if_neg he] at h
        have hs : s = jsRound (min 100
            ((((analyzeHeaders env req.headers).score : ℚ)) * (2/5)
              + (((analyzeBody b).score : ℚ)) * (1/5)
              + (((highestLink (scanLinks env cache (req.links.getD [])).1).1 : ℚ)) * (2/5))) := by
          have := (EmailResponse.success.injEq _ _ _ _ _ _).mp h
          exact this.2.1.symm
        have hh : (0:ℤ) ≤ (analyzeHeaders env req.headers).score :=
          analyzeHeaders_score_nonneg env req.headers
        have hbs : (0:ℤ) ≤ (analyzeBody b).score := analyzeBody_score_nonneg b
        have hhl : (0:ℤ) ≤ (highestLink (scanLinks env cache (req.links.getD [])).1).1 := by
          have := highest_fold_ge_acc (scanLinks env cache (req.links.getD [])).1 (0, none)
          simpa [highestLink] using this
        have hq : (0:ℚ) ≤ (((analyzeHeaders env req.headers).score : ℚ)) * (2/5)
            + (((analyzeBody b).score : ℚ)) * (1/5)
            + (((highestLink (scanLinks env cache (req.links.getD [])).1).1 : ℚ)) * (2/5) := by
          have h1 : (0:ℚ) ≤ ((analyzeHeaders env req.headers).score : ℚ) := by exact_mod_cast hh
          have h2 : (0:ℚ) ≤ ((analyzeBody b).score : ℚ) := by exact_mod_cast hbs
          have h3 : (0:ℚ) ≤ ((highestLink (scanLinks env cache (req.links.getD [])).1).1 : ℚ) := by
            exact_mod_cast hhl
          nlinarith
        rw [hs]
        constructor
        · exact jsRound_nonneg (le_min (by norm_num) hq)
        · exact jsRound_le_hundred (min_le_left _ _)

theorem all_scores_clamped_witness :
    ((0 ≤ ((aggregateSignals envNull Cache.empty
          { url := "u", anchorText := none, senderDomain := none }).1).score
      ∧ ((aggregateSignals envNull Cache.empty
          { url := "u", anchorText := none, senderDomain := none }).1).score ≤ 100)
      ∧ Cache.valid ((aggregateSignals envNull Cache.empty
          { url := "u", anchorText := none, senderDomain := none }).2))
    ∧ (0 ≤ (4:ℤ) ∧ (4:ℤ) ≤ 100) :=
  ⟨all_scores_clamped.1 envNull Cache.empty _ empty_cache_valid,
   all_scores_clamped.2 envNull Cache.empty
     { headers := none, body := some "hello", links := none } Verdict.safe 4
     { headerReport := neutralReport, bodyKeywords := [], highestLinkScore := 0,
       mostMaliciousLink := none, finalScore := 4 }
     (by with_unfolding_all rfl)⟩

/-- C3: the URL verdict is `malicious` iff the final score is ≥ 70,
`suspicious` iff it is in [40, 69] and `safe` iff it is ≤ 39; the email
verdict is `malicious` iff the score is ≥ 80, `suspicious` iff it is in
[50, 79] and `safe` otherwise (iff ≤ 49). -/
theorem verdict_threshold_boundaries :
    ∀ s : ℤ,
      ((verdictUrl s = Verdict.malicious) ↔ 70 ≤ s) ∧
      ((verdictUrl s = Verdict.suspicious) ↔ (40 ≤ s ∧ s ≤ 69)) ∧
      ((verdictUrl s = Verdict.safe) ↔ s ≤ 39) ∧
      ((verdictEmail s = Verdict.malicious) ↔ 80 ≤ s) ∧
      ((verdictEmail s = Verdict.suspicious) ↔ (50 ≤ s ∧ s ≤ 79)) ∧
      ((verdictEmail s = Verdict.safe) ↔ s ≤ 49) := by
  intro s
  unfold verdictUrl verdictEmail MALICIOUS_THRESHOLD SUSPICIOUS_THRESHOLD
  split_ifs <;> refine ⟨⟨?_, ?_⟩, ⟨?_, ?_⟩, ⟨?_, ?_⟩, ⟨?_, ?_⟩, ⟨?_, ?_⟩, ⟨?_, ?_⟩⟩ <;>
    intro h <;> first
      | rfl
      | omega
      | (exact absurd h (by simp))

/-- C4: within the cache TTL, a second identical `aggregateSignals` call
does not recompute: it leaves the cache unchanged and returns the first
call's result with the `cached` property set to `true`; a third (and by
the fixed-point equation every later) identical call returns exactly the
same pair again. -/
theorem cache_repeat_idempotent :
    ∀ (env : Env) (cache : Cache) (t : ScanTarget),
      ((aggregateSignals env ((aggregateSignals env cache t).2) t).2
        = (aggregateSignals env cache t).2) ∧
      ((aggregateSignals env ((aggregateSignals env cache t).2) t).1
        = { (aggregateSignals env cache t).1 with cached := some true }) ∧
      (aggregateSignals env ((aggregateSignals env ((aggregateSignals env cache t).2) t).2) t
        = aggregateSignals env ((aggregateSignals env cache t).2) t) := by
  intro env cache t
  cases hc : Cache.get cache (cacheKey t) with
  | some c =>
    simp only [aggregateSignals, hc]
    exact ⟨trivial, trivial, trivial⟩
  | none =>
    simp only [aggregateSignals, hc, cache_get_set_self]
    exact ⟨trivial, trivial, trivial⟩

/-- C5: an absent reputation score contributes neither to the weighted
sum nor to its denominator, and when both external lookups are absent
the base score is the neutral midpoint 50, to which the (capped)
heuristic contribution and the authentication offsets are then added
before clamping. -/
theorem absent_signals_neutral_base :
    (weightedTotals none none = (0, 0)) ∧
    (∀ s : ℤ, weightedTotals (some s) none = ((s : ℚ) * WEIGHTS.ipqs, WEIGHTS.ipqs)) ∧
    (∀ s : ℤ, weightedTotals none (some s) = ((s : ℚ) * WEIGHTS.stalkphish, WEIGHTS.stalkphish)) ∧
    (baseScoreOf none none = 50) ∧
    (∀ (env : Env) (cache : Cache) (t : ScanTarget),
      Cache.get cache (cacheKey t) = none →
      env.ipqs t.url = none → env.stalkphish t.url = none →
      ((aggregateSignals env cache t).1).score =
        max 0 (min 100 (50 + min 30 (heuristicsScore env
            { url := t.url, anchorText := t.anchorText,
              redirectCount := some (env.redirect t.url).redirectCount,
              finalUrl := (env.redirect t.url).finalUrl })
          + authBonusOf (authFor env t.senderDomain)))) := by
  have h50 : baseScoreOf none none = 50 := by
    simp [baseScoreOf, weightedTotals]
  refine ⟨rfl, ?_, ?_, h50, ?_⟩
  · intro s; simp [weightedTotals]
  · intro s; simp [weightedTotals]
  · intro env cache t hc hi hs
    simp only [aggregateSignals, hc, computeResult, hi, hs, explicitMaliciousOf,
      Option.bind, h50]
    simp

theorem absent_signals_neutral_base_witness :
    ((aggregateSignals envNull Cache.empty
        { url := "u", anchorText := none, senderDomain := none }).1).score
      = max 0 (min 100 (50 + min 30 (heuristicsScore envNull
          { url := "u", anchorText := none,
            redirectCount := some (envNull.redirect "u").redirectCount,
            finalUrl := (envNull.redirect "u").finalUrl })
        + authBonusOf (authFor envNull none))) :=
  absent_signals_neutral_base.2.2.2.2 envNull Cache.empty _ rfl rfl rfl

/-- C6: for an email scan with a non-empty link list,
`linkAnalysis.highestLinkScore` is exactly the maximum of the individual
link scores — it is one of them and bounds all of them. -/
theorem worst_link_wins :
    ∀ (env : Env) (cache : Cache) (req : EmailRequest) (b : String) (links : List LinkInput),
      Cache.valid cache → req.body = some b → b.isEmpty = false →
      req.links = some links → links ≠ [] →
      (((scanEmailHandler env cache req).1).highestOf
        = some ((highestLink (scanLinks env cache links).1).1)) ∧
      ((highestLink (scanLinks env cache links).1).1
        ∈ (scanLinks env cache links).1.map (fun r => r.score)) ∧
      (∀ r ∈ (scanLinks env cache links).1,
        r.score ≤ (highestLink (scanLinks env cache links).1).1) := by
  intro env cache req b links hv hb he hl hne
  have hresp : ((scanEmailHandler env cache req).1).highestOf
      = some ((highestLink (scanLinks env cache links).1).1) := by
    unfold scanEmailHandler
    rw [hb]
    dsimp only
    rw [if_neg (by simp [he])]
    simp [EmailResponse.highestOf, hl]
  have hscores := (scanLinks_bounds env links cache hv).1
  refine ⟨hresp, ?_, ?_⟩
  · rcases highest_fold_mem (scanLinks env cache links).1 (0, none) with h0 | hm
    · cases links with
      | nil => exact absurd rfl hne
      | cons l ls =>
        have hcons : (scanLinks env cache (l :: ls)).1
            = (aggregateSignals env cache
                { url := l.href, anchorText := l.anchorText, senderDomain := none }).1
              :: (scanLinks env
                  ((aggregateSignals env cache
                    { url := l.href, anchorText := l.anchorText, senderDomain := none }).2) ls).1 := by
          simp [scanLinks]
        set hd := (aggregateSignals env cache
            { url := l.href, anchorText := l.anchorText, senderDomain := none }).1 with hhd
        have hmem : hd ∈ (scanLinks env cache (l :: ls)).1 := by
          rw [hcons]; exact List.mem_cons_self _ _
        have hub := highest_fold_ub (scanLinks env cache (l :: ls)).1 (0, none) hd hmem
        have hge : 0 ≤ hd.score := (hscores hd hmem).1
        have : (highestLink (scanLinks env cache (l :: ls)).1).1 = hd.score := by
          unfold highestLink at *
          omega
        rw [this]
        exact List.mem_map.mpr ⟨hd, hmem, rfl⟩
    · exact hm
  · intro r hr
    exact highest_fold_ub _ _ r hr

theorem worst_link_wins_witness :
    Cache.valid cacheW6 ∧
    ((((scanEmailHandler envNull cacheW6 reqW6).1).highestOf
        = some ((highestLink (scanLinks envNull cacheW6 linksW6).1).1)) ∧
      ((highestLink (scanLinks envNull cacheW6 linksW6).1).1
        ∈ (scanLinks envNull cacheW6 linksW6).1.map (fun r => r.score)) ∧
      (∀ r ∈ (scanLinks envNull cacheW6 linksW6).1,
        r.score ≤ (highestLink (scanLinks envNull cacheW6 linksW6).1).1)) ∧
    (highestLink (scanLinks envNull cacheW6 linksW6).1).1 = 95 :=
  ⟨by unfold Cache.valid; decide,
   worst_link_wins envNull cacheW6 reqW6 "x" linksW6
     (by unfold Cache.valid; decide) rfl (by decide) rfl (by decide),
   by decide⟩

/-- C7 counterexample: the fingerprinting of `(url, anchorText,
senderDomain)` triples is not injective — the two distinct targets
`tColl1` and `tColl2` produce the same cache key, and after scanning the
first, a scan of the second is served from its cache entry
(`cached = true`). -/
theorem fingerprint_injectivity_counterexample :
    cacheKey tColl1 = cacheKey tColl2 ∧ tColl1.url ≠ tColl2.url ∧
    ((aggregateSignals envNull ((aggregateSignals envNull Cache.empty tColl1).2) tColl2).1).cached
      = some true := by
  refine ⟨by decide, by decide, by with_unfolding_all decide⟩

/-- C7 (amended): equal triples `(url, anchorText, senderDomain)`, with
absent fields taken as empty strings, always map to the same cache
fingerprint, so identical targets share a cache entry; the converse
fails (see the counterexample), because a `::` inside a field absorbs
the delimiter. -/
theorem fingerprint_triple_sound :
    ∀ t1 t2 : ScanTarget,
      t1.url = t2.url → t1.anchorText.getD "" = t2.anchorText.getD "" →
      t1.senderDomain.getD "" = t2.senderDomain.getD "" →
      cacheKey t1 = cacheKey t2 := by
  intro t1 t2 h1 h2 h3
  unfold cacheKey
  rw [h1, h2, h3]

theorem fingerprint_triple_sound_witness :
    cacheKey { url := "u", anchorText := none, senderDomain := none }
      = cacheKey { url := "u", anchorText := some "", senderDomain := none } :=
  fingerprint_triple_sound _ _ rfl rfl rfl

/-- C8 counterexample: a 200 response of `POST /scan` on a cache miss has
no `cached` field at all (the handler spreads the freshly built result,
which carries no `cached` property), refuting the claim that every 200
response contains a boolean `cached`. -/
theorem scan_missing_cached_counterexample :
    ((scanHandler envNull Cache.empty reqW8).1).cachedOf = some none := by
  with_unfolding_all decide

/-- C8 (amended): every 200 response of `POST /scan` contains `ok`,
`url`, `verdict`, `score` and `breakdown` (it is the success constructor
around the aggregated result); the `cached` field is present — with
value `true` — exactly when the request was served from the cache, and
absent on cache misses. -/
theorem scan_response_shape :
    ∀ (env : Env) (cache : Cache) (req : ScanRequest) (u : String),
      req.url = some u → u.isEmpty = false →
      (scanHandler env cache req).1
        = ScanResponse.success ((aggregateSignals env cache
            { url := u, anchorText := req.anchorText, senderDomain := req.senderDomain }).1) ∧
      ((aggregateSignals env cache
          { url := u, anchorText := req.anchorText, senderDomain := req.senderDomain }).1).cached
        = (if (Cache.get cache (cacheKey
              { url := u, anchorText := req.anchorText, senderDomain := req.senderDomain })).isSome
           then some true else none) := by
  intro env cache req u hu he
  constructor
  · simp [scanHandler, hu, he]
  · cases hc : Cache.get cache (cacheKey
        { url := u, anchorText := req.anchorText, senderDomain := req.senderDomain }) with
    | some c => simp [aggregateSignals, hc]
    | none => simp [aggregateSignals, hc, computeResult]

theorem scan_response_shape_witness :
    ((scanHandler envNull Cache.empty reqW8).1
      = ScanResponse.success ((aggregateSignals envNull Cache.empty
          { url := "http://e.test", anchorText := reqW8.anchorText,
            senderDomain := reqW8.senderDomain }).1)) ∧
    (((aggregateSignals envNull Cache.empty
        { url := "http://e.test", anchorText := reqW8.anchorText,
          senderDomain := reqW8.senderDomain }).1).cached
      = if (Cache.get Cache.empty (cacheKey
          { url := "http://e.test", anchorText := reqW8.anchorText,
            senderDomain := reqW8.senderDomain })).isSome
        then some true else none) :=
  scan_response_shape envNull Cache.empty reqW8 "http://e.test" rfl rfl

theorem anchorMismatchAdd_nonneg (env : Env) (u : UrlObj) (a : Option String) :
    0 ≤ anchorMismatchAdd env u a := by
  unfold anchorMismatchAdd
  repeat' (first | split | norm_num)

theorem punycodeAdd_nonneg (u : UrlObj) : 0 ≤ punycodeAdd u := by
  unfold punycodeAdd; split <;> norm_num

theorem ipHostAdd_nonneg (u : UrlObj) : 0 ≤ ipHostAdd u := by
  unfold ipHostAdd; split <;> norm_num

theorem tldAdd_nonneg (u : UrlObj) : 0 ≤ tldAdd u := by
  unfold tldAdd
  repeat' (first | split | norm_num)

theorem redirectAdd_nonneg (rc : Option ℕ) : 0 ≤ redirectAdd rc := by
  unfold redirectAdd
  repeat' split
  all_goals positivity

theorem finalUrlAdd_nonneg (env : Env) (u : UrlObj) (f : Option String) :
    0 ≤ finalUrlAdd env u f := by
  unfold finalUrlAdd
  repeat' (first | split | norm_num)

/-- C9: `heuristicsScore` is a pure total function returning a
non-negative integer for every input; a malformed `url` (one the URL
parser rejects) yields 0, a malformed embedded URL token inside the
anchor text only cancels the anchor contribution without affecting the
rest, and a malformed `finalUrl` only cancels the final-redirect
contribution. -/
theorem heuristics_score_total :
    ∀ (env : Env) (inp : HeurInput),
      0 ≤ heuristicsScore env inp ∧
      (env.parseURL inp.url = none → heuristicsScore env inp = 0) ∧
      (∀ a m0, inp.anchorText = some a → a.isEmpty = false →
        env.anchorHostToken a = some m0 → strStartsWith m0 ("http") = true →
        env.parseURL m0 = none →
        heuristicsScore env inp = heuristicsScore env { inp with anchorText := none }) ∧
      (∀ f, inp.finalUrl = some f → f.isEmpty = false → env.parseURL f = none →
        heuristicsScore env inp = heuristicsScore env { inp with finalUrl := none }) := by
  intro env inp
  refine ⟨?_, ?_, ?_, ?_⟩
  · unfold heuristicsScore
    split
    · norm_num
    · exact add_nonneg (add_nonneg (add_nonneg (add_nonneg (add_nonneg
        (anchorMismatchAdd_nonneg env _ _) (punycodeAdd_nonneg _)) (ipHostAdd_nonneg _))
        (tldAdd_nonneg _)) (redirectAdd_nonneg _)) (finalUrlAdd_nonneg env _ _)
  · intro h
    unfold heuristicsScore
    rw [h]
  · intro a m0 ha he htok hstart hparse
    have hA : ∀ u : UrlObj, anchorMismatchAdd env u (some a) = 0 := by
      intro u
      unfold anchorMismatchAdd
      simp [he, htok, hstart, hparse]
    unfold heuristicsScore
    cases hP : env.parseURL inp.url with
    | none => rfl
    | some u =>
      dsimp only
      rw [ha, hA u]
      rfl
  · intro f hf he hparse
    have hF : ∀ u : UrlObj, finalUrlAdd env u (some f) = 0 := by
      intro u
      unfold finalUrlAdd
      simp [he, hparse]
    unfold heuristicsScore
    cases hP : env.parseURL inp.url with
    | none => rfl
    | some u =>
      dsimp only
      rw [hf, hF u]
      rfl

theorem heuristics_score_total_witness :
    (heuristicsScore envNull
        { url := "bad", anchorText := none, redirectCount := none, finalUrl := none } = 0) ∧
    (0 ≤ heuristicsScore envNull
        { url := "bad", anchorText := none, redirectCount := none, finalUrl := none }) ∧
    (heuristicsScore envTok
        { url := "http://a.test", anchorText := some "see http://b.test",
          redirectCount := none, finalUrl := none }
      = heuristicsScore envTok
        { url := "http://a.test", anchorText := none,
          redirectCount := none, finalUrl := none }) ∧
    (heuristicsScore envTok
        { url := "http://a.test", anchorText := none,
          redirectCount := none, finalUrl := some "http://c.test" }
      = heuristicsScore envTok
        { url := "http://a.test", anchorText := none,
          redirectCount := none, finalUrl := none }) := by
  refine ⟨(heuristics_score_total envNull _).2.1 rfl,
    (heuristics_score_total envNull _).1, ?_, ?_⟩
  · exact (heuristics_score_total envTok
      { url := "http://a.test", anchorText := some "see http://b.test",
        redirectCount := none, finalUrl := none }).2.2.1
      "see http://b.test" "http://b.test" rfl (by decide) (by decide) (by decide) (by decide)
  · exact (heuristics_score_total envTok
      { url := "http://a.test", anchorText := none,
        redirectCount := none, finalUrl := some "http://c.test" }).2.2.2
      "http://c.test" rfl (by decide) (by decide)

/-- C10: a `POST /scan-email` request whose `body` is missing or empty is
rejected with a 400 client error, and no downstream computation happens:
the cache is returned unchanged (no link scans, no cache writes, no
analysis result in the response). -/
theorem email_missing_body_rejected :
    ∀ (env : Env) (cache : Cache) (req : EmailRequest),
      (req.body = none ∨ req.body = some "") →
      scanEmailHandler env cache req
        = (EmailResponse.clientError 400 ("missing email body"), cache) := by
  intro env cache req h
  rcases h with h | h
  · simp [scanEmailHandler, h]
  · simp [scanEmailHandler, h]
    rfl

theorem email_missing_body_rejected_witness :
    scanEmailHandler envNull Cache.empty { headers := none, body := some "", links := none }
      = (EmailResponse.clientError 400 ("missing email body"), Cache.empty) :=
  email_missing_body_rejected envNull Cache.empty _ (Or.inr rfl)
